import Mathlib

/-!
Shallow embedding of the Kachelmann Wetter integration core
(`custom_components/kmw`): the refresh coordinator with its three endpoint
fetchers (`coordinator.py`), the hourly series merge and condition mapping of
the weather entity (`weather.py`), and the symbol table (`const.py`).

Modelling conventions:
* HTTP is modelled by a pure `session : HttpRequest → HttpResponse α`
  standing for `aiohttp.ClientSession.get`; the response body is the
  already-parsed JSON payload (the code calls `response.json()` only on
  success paths relevant to the claims).
* Each operation that performs requests also returns the list of requests it
  issued, in order, so that "no HTTP call is made" is expressible.
* `raise UpdateFailed` becomes the `Except` error channel; the error value
  records the status code and URL that the Python message string embeds.
* Timestamps: `homeassistant.util.dt.parse_datetime` is an external
  collaborator and is modelled by an arbitrary `parse : String → Option Int`
  (returning `none` where the Python helper returns `None` or raises
  `ValueError`), with datetimes ordered as integers; `dt_util.utcnow()` is a
  fixed instant `now : Int`.
* Python truthiness on the relevant values: `None` and `""` are falsy for
  `item.get("dateTime")`; a `{value, unit}` measurement dict is non-empty and
  hence truthy; an empty list is falsy.

Definitions come first, then the lemmas and the claim theorems.
-/

namespace Kmw

/-! ## HTTP layer (`coordinator.py`) -/

/-- A GET request as issued by the three fetchers: URL plus the two headers
`Accept` and `X-API-Key`. -/
structure HttpRequest where
  url : String
  accept : String
  xApiKey : String
deriving DecidableEq, Repr

/-- A response as observed by the fetchers: status code and (parsed JSON)
body. -/
structure HttpResponse (α : Type) where
  status : Nat
  body : α
deriving DecidableEq, Repr

/-- The `UpdateFailed` exception of the coordinator.  `unexpectedStatus`
models `UpdateFailed(f"Unexpected status code {status} from {url}.")`, which
carries the status code and URL; `wrapped` models the catch-all
`raise UpdateFailed(err) from err` in `_async_update_data`. -/
inductive UpdateFailed where
  | unexpectedStatus (status : Nat) (url : String)
  | wrapped (inner : UpdateFailed)
deriving DecidableEq, Repr

/-- `KmwDataUpdateCoordinator.HTTP_OK`. -/
def HTTP_OK : Nat := 200

/-- `KmwDataUpdateCoordinator.HTTP_OK_MAX`. -/
def HTTP_OK_MAX : Nat := 299

/-- `KmwDataUpdateCoordinator.HTTP_NOT_MODIFIED` — declared in the source but
never consulted by any fetch path. -/
def HTTP_NOT_MODIFIED : Nat := 304

/-- URL of the daily-trend endpoint, from the f-string in
`async_fetch_3day_forecast`.  Coordinates are kept in their rendered string
form. -/
def trendUrl (lat lon : String) : String :=
  "https://api.kachelmannwetter.com/v02/forecast/" ++ lat ++ "/" ++ lon
    ++ "/trend14days"

/-- URL of the fine hourly endpoint, from `async_fetch_hourly_forecast`. -/
def hourlyUrl (lat lon : String) : String :=
  "https://api.kachelmannwetter.com/v02/forecast/" ++ lat ++ "/" ++ lon
    ++ "/advanced/1h"

/-- URL of the current-conditions endpoint, from
`async_fetch_current_weather`. -/
def currentUrl (lat lon : String) : String :=
  "https://api.kachelmannwetter.com/v02/current/" ++ lat ++ "/" ++ lon

/-- The request each fetcher builds: the given URL with headers
`{"Accept": "application/json", "X-API-Key": api_key}`. -/
def mkRequest (url apiKey : String) : HttpRequest :=
  ⟨url, "application/json", apiKey⟩

/-- `KmwDataUpdateCoordinator.async_fetch_3day_forecast`: GET the trend URL;
status in `[HTTP_OK, HTTP_OK_MAX]` returns the parsed body, any other status
raises `UpdateFailed` carrying the status code and URL.  Also returns the
requests issued. -/
def async_fetch_3day_forecast {α : Type} (session : HttpRequest → HttpResponse α)
    (lat lon apiKey : String) : Except UpdateFailed α × List HttpRequest :=
  let req := mkRequest (trendUrl lat lon) apiKey
  let resp := session req
  if HTTP_OK ≤ resp.status ∧ resp.status ≤ HTTP_OK_MAX then
    (.ok resp.body, [req])
  else
    (.error (.unexpectedStatus resp.status (trendUrl lat lon)), [req])

/-- `KmwDataUpdateCoordinator.async_fetch_hourly_forecast`: status in
`[HTTP_OK, HTTP_OK_MAX]` returns the parsed body, any other status returns
`None` without raising. -/
def async_fetch_hourly_forecast {α : Type} (session : HttpRequest → HttpResponse α)
    (lat lon apiKey : String) : Option α × List HttpRequest :=
  let req := mkRequest (hourlyUrl lat lon) apiKey
  let resp := session req
  if HTTP_OK ≤ resp.status ∧ resp.status ≤ HTTP_OK_MAX then
    (some resp.body, [req])
  else
    (none, [req])

/-- `KmwDataUpdateCoordinator.async_fetch_current_weather`: same non-fatal
policy as the hourly fetch, on the current-conditions URL. -/
def async_fetch_current_weather {α : Type} (session : HttpRequest → HttpResponse α)
    (lat lon apiKey : String) : Option α × List HttpRequest :=
  let req := mkRequest (currentUrl lat lon) apiKey
  let resp := session req
  if HTTP_OK ≤ resp.status ∧ resp.status ≤ HTTP_OK_MAX then
    (some resp.body, [req])
  else
    (none, [req])

/-- The configuration the coordinator reads each cycle:
`options.get(CONF_FORECAST, CONF_FORECAST_DEFAULT)`, the API key, and the
rendered coordinates from the host configuration. -/
structure CoordinatorConfig where
  forecastEnabled : Bool
  apiKey : String
  latitude : String
  longitude : String
deriving DecidableEq, Repr

/-- The published snapshot: the dict literal returned by
`_async_update_data`, as an association list preserving key order. -/
def Snapshot (α : Type) : Type := List (String × Option α)

/-- `dict.get(key)` on a snapshot: `None` when the key is missing. -/
def dictGet {α : Type} (data : Snapshot α) (key : String) : Option α :=
  match List.lookup key data with
  | some v => v
  | none => none

/-- `KmwDataUpdateCoordinator._async_update_data`: when forecast is enabled,
fetch trend (fatal on failure, re-wrapped by the catch-all), then hourly and
current (degrading), and publish the three-key dict; when disabled, publish
the dict with all three values `None` and issue no request. -/
def _async_update_data {α : Type} (session : HttpRequest → HttpResponse α)
    (cfg : CoordinatorConfig) : Except UpdateFailed (Snapshot α) × List HttpRequest :=
  if cfg.forecastEnabled then
    match async_fetch_3day_forecast session cfg.latitude cfg.longitude cfg.apiKey with
    | (.error e, reqs) => (.error (.wrapped e), reqs)
    | (.ok fd, reqs1) =>
      let fh := async_fetch_hourly_forecast session cfg.latitude cfg.longitude cfg.apiKey
      let cw := async_fetch_current_weather session cfg.latitude cfg.longitude cfg.apiKey
      (.ok [("forecast", some fd), ("forecast_hourly", fh.1), ("current", cw.1)],
        reqs1 ++ fh.2 ++ cw.2)
  else
    (.ok [("forecast", none), ("forecast_hourly", none), ("current", none)], [])

/-- `KachelmannWeather.available` (`weather.py`): last refresh succeeded and
`coordinator.data.get("current") is not None`. -/
def available {α : Type} (lastUpdateSuccess : Bool) (data : Snapshot α) : Bool :=
  lastUpdateSuccess && (dictGet data "current").isSome

/-! ## Condition mapping (`weather.py` / `const.py`) -/

/-- `DayNight` enumeration of `weather.py`. -/
inductive DayNight where
  | DAY
  | NIGHT
deriving DecidableEq, Repr

/-- `CONDITIONS_MAP` from `const.py`, as an association list in source order.
The right-hand sides are the host platform's canonical condition strings
(`ATTR_CONDITION_CLEAR_NIGHT = "clear-night"`, `ATTR_CONDITION_SUNNY =
"sunny"`, and so on). -/
def CONDITIONS_MAP : List (String × String) :=
  [("sunshine_night", "clear-night"),
   ("cloudy", "cloudy"),
   ("fog", "fog"),
   ("hail", "hail"),
   ("thunderstorm", "lightning"),
   ("rainheavy", "lightning-rainy"),
   ("partlycloudy", "partlycloudy"),
   ("showersheavy", "pouring"),
   ("showers_moderate", "rainy"),
   ("snow", "snowy"),
   ("snowrain", "snowy-rainy"),
   ("sunshine", "sunny"),
   ("overcast", "cloudy"),
   ("partlycloudy2", "partlycloudy"),
   ("showers_light", "rainy"),
   ("showers_rain_light", "rainy"),
   ("rain", "rainy"),
   ("rain_light", "rainy"),
   ("rain_moderate", "rainy"),
   ("snowrainshowers", "snowy-rainy"),
   ("snowrainshowersheavy", "snowy-rainy"),
   ("snowrainheavy", "snowy-rainy"),
   ("snowshowers", "snowy"),
   ("snowshowersheavy", "snowy"),
   ("snowheavy", "snowy")]

/-- `CONDITIONS_MAP.get(symbol)` — dict lookup, `None` when missing. -/
def conditionsMapGet (s : String) : Option String :=
  List.lookup s CONDITIONS_MAP

/-- `KachelmannWeather._get_condition_from_weather_symbol`: falsy symbol
(`None` or `""`) yields `None`; at night a `"sunshine"` symbol is redirected
to the `"sunshine_night"` table entry; otherwise plain table lookup. -/
def _get_condition_from_weather_symbol (symbol : Option String)
    (dayNight : DayNight) : Option String :=
  match symbol with
  | none => none
  | some s =>
    if s = "" then none
    else if dayNight ≠ DayNight.DAY ∧ s = "sunshine" then
      conditionsMapGet "sunshine_night"
    else
      conditionsMapGet s

/-! ## Current weather reading (`weather.py`) -/

/-- One `{value, unit}` measurement dict of the current-conditions payload;
only the value matters to the claims, modelled as a rational standing for the
JSON number.  A measurement dict is non-empty, hence truthy in Python. -/
structure Measurement where
  value : ℚ
deriving DecidableEq, Repr

/-- The per-quantity fields of `current["data"]` that the precipitation
property reads; each quantity is independently optional. -/
structure CurrentDayData where
  precCurrent : Option Measurement
  prec1h : Option Measurement
deriving DecidableEq, Repr

/-- The current-conditions payload: a dict whose `"data"` key holds the
quantity mapping (or is missing). -/
structure CurrentPayload where
  data : Option CurrentDayData
deriving DecidableEq, Repr

/-- `KachelmannWeather._get_current_data`: `None` when the `"current"`
snapshot field is absent or its `"data"` key is falsy. -/
def _get_current_data (current : Option CurrentPayload) : Option CurrentDayData :=
  match current with
  | none => none
  | some p => p.data

/-- The Python expression
`current_day_data.get("precCurrent") or current_day_data.get("prec1h")`:
`precCurrent` when present (a measurement dict is truthy), else the
`prec1h` fallback. -/
def effectivePrec (d : CurrentDayData) : Option Measurement :=
  match d.precCurrent with
  | some m => some m
  | none => d.prec1h

/-- `KachelmannWeather.native_precipitation_rate`: absent data yields `None`,
a value of exactly `0.0` yields `None`, otherwise the value. -/
def native_precipitation_rate (current : Option CurrentPayload) : Option ℚ :=
  match _get_current_data current with
  | none => none
  | some d =>
    match effectivePrec d with
    | none => none
    | some m => if m.value = 0 then none else some m.value

/-! ## Hourly series merge (`weather.py`, `_async_forecast_hourly`)

The merge manipulates entries only through `item.get("dateTime")`, so an
entry is modelled by its optional `dateTime` string; the final projection to
forecast dicts is a per-entry map that copies `dateTime` into
`ATTR_FORECAST_TIME` and preserves order, so the merged entry list is the
faithful carrier of every ordering/dedup/discard fact. -/

/-- One element of a payload's `"data"` list. -/
structure HourlyItem where
  dateTime : Option String
deriving DecidableEq, Repr

/-- Truthiness of `item.get("dateTime")` — the generator filter
`item for item in data if item.get("dateTime")`: present and non-empty. -/
def hasDateTime (item : HourlyItem) : Bool :=
  match item.dateTime with
  | none => false
  | some s => !(s == "")

/-- The local `_parse_time` helper: falsy input gives `None`, otherwise the
external datetime parser (which yields `None` on failure). -/
def _parse_time (parse : String → Option Int) (value : Option String) : Option Int :=
  match value with
  | none => none
  | some s => if s = "" then none else parse s

/-- The sort key `_parse_time(item.get("dateTime")) or dt_util.utcnow()`:
the parsed timestamp, with the current instant as fallback for unparseable
entries. -/
def sortKey (parse : String → Option Int) (now : Int) (item : HourlyItem) : Int :=
  (_parse_time parse item.dateTime).getD now

/-- Comparison on sort keys used by `sorted(..., key=...)`. -/
def itemLe (parse : String → Option Int) (now : Int) (a b : HourlyItem) : Bool :=
  decide (sortKey parse now a ≤ sortKey parse now b)

/-- The string added to / tested against `seen_times` for an entry (always
its actual `dateTime` string on the paths where it is used). -/
def seenKey (item : HourlyItem) : String :=
  item.dateTime.getD ""

/-- The guard `last_1h_time and dt_value <= last_1h_time`: `False` when
`last_1h_time` is `None` (Python short-circuit on a falsy left operand). -/
def leLast (last1h : Option Int) (t : Int) : Bool :=
  match last1h with
  | some T => decide (t ≤ T)
  | none => false

/-- Stable insertion into a sorted list: the new element goes before the
first element it compares `le` to, so elements with equal keys keep their
original relative order, as Python's stable `sorted` does. -/
def insertLe {α : Type} (le : α → α → Bool) (x : α) : List α → List α
  | [] => [x]
  | y :: ys => if le x y then x :: y :: ys else y :: insertLe le x ys

/-- Stable sort (insertion sort), modelling Python's `sorted`. -/
def sortStable {α : Type} (le : α → α → Bool) : List α → List α
  | [] => []
  | x :: xs => insertLe le x (sortStable le xs)

/-- The loop over `data_3h_sorted`: skip unparseable timestamps, skip
timestamps `<= last_1h_time` (when that is set), skip `dateTime` strings
already in `seen_times`, otherwise append and record the string. -/
def coarseStep (parse : String → Option Int) (last1h : Option Int) :
    List HourlyItem → List String → List HourlyItem
  | [], _ => []
  | item :: rest, seen =>
    match _parse_time parse item.dateTime with
    | none => coarseStep parse last1h rest seen
    | some t =>
      if leLast last1h t then
        coarseStep parse last1h rest seen
      else if seenKey item ∈ seen then
        coarseStep parse last1h rest seen
      else
        item :: coarseStep parse last1h rest (seenKey item :: seen)

/-- `data_1h_sorted`: the timestamped fine entries, stably sorted by key;
all of them are appended to `merged`. -/
def fineBlock (parse : String → Option Int) (now : Int)
    (data1h : List HourlyItem) : List HourlyItem :=
  sortStable (itemLe parse now) (data1h.filter hasDateTime)

/-- `last_1h_time`: the parsed timestamp of the last element of
`data_1h_sorted`, `None` when the fine block is empty or its last entry does
not parse. -/
def lastFineTime (parse : String → Option Int) (now : Int)
    (data1h : List HourlyItem) : Option Int :=
  match (fineBlock parse now data1h).getLast? with
  | none => none
  | some item => _parse_time parse item.dateTime

/-- The coarse entries retained by the loop, starting from `seen_times`
holding every fine `dateTime` string. -/
def coarseBlock (parse : String → Option Int) (now : Int)
    (data1h data3h : List HourlyItem) : List HourlyItem :=
  coarseStep parse (lastFineTime parse now data1h)
    (sortStable (itemLe parse now) (data3h.filter hasDateTime))
    ((fineBlock parse now data1h).map seenKey)

/-- The full `merged` list: the fine block followed by the retained coarse
entries. -/
def mergeHourly (parse : String → Option Int) (now : Int)
    (data1h data3h : List HourlyItem) : List HourlyItem :=
  fineBlock parse now data1h ++ coarseBlock parse now data1h data3h

/-- A payload held in the snapshot's hourly fields: a dict whose `"data"`
key holds the entry list (or is missing/falsy). -/
structure HourlyPayload where
  data : Option (List HourlyItem)
deriving DecidableEq, Repr

/-- `(payload or {}).get("data") or []`. -/
def payloadData (p : Option HourlyPayload) : List HourlyItem :=
  match p with
  | none => []
  | some q => q.data.getD []

/-- `KachelmannWeather._async_forecast_hourly`: `None` when both extracted
lists are empty, otherwise the merged series. -/
def _async_forecast_hourly (parse : String → Option Int) (now : Int)
    (fh fh3 : Option HourlyPayload) : Option (List HourlyItem) :=
  let data1h := payloadData fh
  let data3h := payloadData fh3
  if data1h.isEmpty && data3h.isEmpty then none
  else some (mergeHourly parse now data1h data3h)

/-- Injectivity of the external timestamp parser on the strings it accepts:
distinct strings denote distinct instants.  Hypothesis of the amended merge
ordering claim. -/
def ParseInjective (parse : String → Option Int) : Prop :=
  ∀ s1 s2 t, parse s1 = some t → parse s2 = some t → s1 = s2

/-- A concrete parser for counterexamples: only `"a"` parses (to 5). -/
def parseOnlyA : String → Option Int :=
  fun s => if s = "a" then some 5 else none

/-- A concrete parser for counterexamples: nothing parses. -/
def parseNothing : String → Option Int :=
  fun _ => none

/-- A concrete three-string parser for witnesses: `"a" ↦ 1`, `"b" ↦ 2`,
`"c" ↦ 3`. -/
def parseABC : String → Option Int :=
  fun s => if s = "a" then some 1 else if s = "b" then some 2
    else if s = "c" then some 3 else none

end Kmw

namespace Kmw

/-! ## Stable sort lemmas -/

/-- Inserting is a permutation of consing. -/
theorem insertLe_perm {α : Type} (le : α → α → Bool) (x : α) (l : List α) :
    List.Perm (insertLe le x l) (x :: l) := by
  induction l with
  | nil => exact List.Perm.refl _
  | cons y ys ih =>
    rw [insertLe]
    by_cases h : le x y = true
    · rw [if_pos h]
    · rw [if_neg h]
      exact List.Perm.trans (List.Perm.cons y ih) (List.Perm.swap x y ys)

/-- The stable sort is a permutation of its input. -/
theorem sortStable_perm {α : Type} (le : α → α → Bool) (l : List α) :
    List.Perm (sortStable le l) l := by
  induction l with
  | nil => exact List.Perm.refl _
  | cons x xs ih =>
    rw [sortStable]
    exact List.Perm.trans (insertLe_perm le x (sortStable le xs)) (List.Perm.cons x ih)

/-- Membership in an insertion. -/
theorem mem_insertLe {α : Type} {le : α → α → Bool} {x a : α} {l : List α} :
    a ∈ insertLe le x l ↔ a = x ∨ a ∈ l := by
  rw [List.Perm.mem_iff (insertLe_perm le x l)]
  simp

/-- Membership in the stable sort. -/
theorem mem_sortStable {α : Type} {le : α → α → Bool} {a : α} {l : List α} :
    a ∈ sortStable le l ↔ a ∈ l :=
  List.Perm.mem_iff (sortStable_perm le l)

/-- Insertion preserves sortedness when `le` is total and transitive. -/
theorem pairwise_insertLe {α : Type} {le : α → α → Bool}
    (htot : ∀ a b, le a b = true ∨ le b a = true)
    (htrans : ∀ a b c, le a b = true → le b c = true → le a c = true)
    {x : α} {l : List α} (h : l.Pairwise (fun a b => le a b = true)) :
    (insertLe le x l).Pairwise (fun a b => le a b = true) := by
  induction l with
  | nil => simp [insertLe]
  | cons y ys ih =>
    rw [insertLe]
    by_cases hxy : le x y = true
    · rw [if_pos hxy]
      refine List.Pairwise.cons ?_ h
      intro z hz
      rcases hz with _ | hz
      · exact hxy
      · exact htrans x y z hxy (List.rel_of_pairwise_cons h (by assumption))
    · rw [if_neg hxy]
      have hyx : le y x = true := (htot x y).resolve_left hxy
      refine List.Pairwise.cons ?_ (ih (List.Pairwise.sublist (List.sublist_cons_self y ys) h))
      intro z hz
      rcases mem_insertLe.mp hz with hzx | hzy
      · subst hzx
        exact hyx
      · exact List.rel_of_pairwise_cons h hzy

/-- The stable sort is sorted when `le` is total and transitive. -/
theorem pairwise_sortStable {α : Type} {le : α → α → Bool}
    (htot : ∀ a b, le a b = true ∨ le b a = true)
    (htrans : ∀ a b c, le a b = true → le b c = true → le a c = true)
    (l : List α) : (sortStable le l).Pairwise (fun a b => le a b = true) := by
  induction l with
  | nil => simp [sortStable]
  | cons x xs ih =>
    rw [sortStable]
    exact pairwise_insertLe htot htrans ih

/-- Unfolding of `_parse_time` on a parsed value: the string is present,
non-empty and accepted by the parser. -/
theorem parse_time_some {parse : String → Option Int} {v : Option String} {t : Int}
    (h : _parse_time parse v = some t) :
    ∃ s, v = some s ∧ s ≠ "" ∧ parse s = some t := by
  cases v with
  | none => exact absurd h (by simp [_parse_time])
  | some s =>
    rw [_parse_time] at h
    by_cases hs : s = ""
    · rw [if_pos hs] at h
      exact absurd h (by simp)
    · rw [if_neg hs] at h
      exact ⟨s, rfl, hs, h⟩

/-- A parsed timestamp is the sort key. -/
theorem sortKey_of_parse {parse : String → Option Int} {now : Int} {item : HourlyItem}
    {t : Int} (h : _parse_time parse item.dateTime = some t) :
    sortKey parse now item = t := by
  rw [sortKey, h]
  rfl

/-- The `seen_times` string of an entry with a present `dateTime`. -/
theorem seenKey_of_dateTime {item : HourlyItem} {s : String} (h : item.dateTime = some s) :
    seenKey item = s := by
  rw [seenKey, h]
  rfl

/-- `itemLe` is total. -/
theorem itemLe_total (parse : String → Option Int) (now : Int) :
    ∀ a b, itemLe parse now a b = true ∨ itemLe parse now b a = true := by
  intro a b
  simp only [itemLe, decide_eq_true_eq]
  exact Int.le_total _ _

/-- `itemLe` is transitive. -/
theorem itemLe_trans (parse : String → Option Int) (now : Int) :
    ∀ a b c, itemLe parse now a b = true → itemLe parse now b c = true →
      itemLe parse now a c = true := by
  intro a b c
  simp only [itemLe, decide_eq_true_eq]
  omega

/-- A `some` result of `getLast?` is a member of the list. -/
theorem getLast?_mem_list {α : Type} :
    ∀ {l : List α} {b : α}, l.getLast? = some b → b ∈ l
  | [], _, h => absurd h (by simp)
  | [a], b, h => by
    simp only [List.getLast?_singleton, Option.some.injEq] at h
    subst h
    exact List.mem_singleton_self a
  | a :: c :: l, b, h => by
    rw [List.getLast?_cons_cons] at h
    exact List.mem_cons_of_mem a (getLast?_mem_list h)

/-- In a `Pairwise R` list, every element is the `getLast?` element or
relates to it. -/
theorem pairwise_getLast_ub {α : Type} {R : α → α → Prop} :
    ∀ {l : List α}, l.Pairwise R → ∀ {b : α}, l.getLast? = some b →
      ∀ a ∈ l, a = b ∨ R a b
  | [], _, _, h, a, ha => absurd ha (by simp)
  | [x], _, b, h, a, ha => by
    simp only [List.getLast?_singleton, Option.some.injEq] at h
    subst h
    rcases List.mem_singleton.mp ha with rfl
    exact Or.inl rfl
  | x :: y :: l, hp, b, h, a, ha => by
    rw [List.getLast?_cons_cons] at h
    rcases List.mem_cons.mp ha with rfl | ha'
    · exact Or.inr (List.rel_of_pairwise_cons hp (getLast?_mem_list h))
    · exact pairwise_getLast_ub hp.tail h a ha'

/-- Everything the coarse loop retains comes from its input with a parseable
timestamp, passes the `last_1h_time` guard, and has a `seen_times` string not
in the starting set. -/
theorem coarseStep_mem {parse : String → Option Int} {last1h : Option Int} :
    ∀ {items : List HourlyItem} {seen : List String} {x : HourlyItem},
      x ∈ coarseStep parse last1h items seen →
      x ∈ items ∧ ∃ t, _parse_time parse x.dateTime = some t ∧
        leLast last1h t = false ∧ seenKey x ∉ seen := by
  intro items
  induction items with
  | nil =>
    intro seen x h
    exact absurd h (by simp [coarseStep])
  | cons item rest ih =>
    intro seen x h
    rw [coarseStep] at h
    split at h
    · obtain ⟨hx, t, ht, hle, hseen⟩ := ih h
      exact ⟨List.mem_cons_of_mem _ hx, t, ht, hle, hseen⟩
    next t hp =>
      split at h
      · obtain ⟨hx, t', ht', hle', hseen'⟩ := ih h
        exact ⟨List.mem_cons_of_mem _ hx, t', ht', hle', hseen'⟩
      next hle =>
        split at h
        · obtain ⟨hx, t', ht', hle', hseen'⟩ := ih h
          exact ⟨List.mem_cons_of_mem _ hx, t', ht', hle', hseen'⟩
        next hseen =>
          rcases List.mem_cons.mp h with rfl | hx
          · exact ⟨List.mem_cons_self _ _, t, hp, Bool.not_eq_true _ ▸ hle, hseen⟩
          · obtain ⟨hx', t', ht', hle', hseen'⟩ := ih hx
            exact ⟨List.mem_cons_of_mem _ hx', t', ht', hle',
              fun hc => hseen' (List.mem_cons_of_mem _ hc)⟩

/-- The retained coarse entries are strictly increasing in sort key when the
input is sorted, every input entry parses, and the parser is injective. -/
theorem coarseStep_pairwise_lt {parse : String → Option Int} {now : Int}
    {last1h : Option Int} (hinj : ParseInjective parse) :
    ∀ {items : List HourlyItem} {seen : List String},
      items.Pairwise (fun a b => itemLe parse now a b = true) →
      (∀ x ∈ items, (_parse_time parse x.dateTime).isSome = true) →
      (coarseStep parse last1h items seen).Pairwise
        (fun a b => sortKey parse now a < sortKey parse now b) := by
  intro items
  induction items with
  | nil =>
    intro seen _ _
    simp [coarseStep]
  | cons item rest ih =>
    intro seen hpair hparse
    rw [coarseStep]
    split
    · exact ih hpair.tail (fun x hx => hparse x (List.mem_cons_of_mem _ hx))
    next t hp =>
      split
      · exact ih hpair.tail (fun x hx => hparse x (List.mem_cons_of_mem _ hx))
      · split
        · exact ih hpair.tail (fun x hx => hparse x (List.mem_cons_of_mem _ hx))
        next hseen =>
          refine List.Pairwise.cons ?_
            (ih hpair.tail (fun x hx => hparse x (List.mem_cons_of_mem _ hx)))
          intro y hy
          obtain ⟨hyrest, ty, hty, _, hynotseen⟩ := coarseStep_mem hy
          have hk1 : sortKey parse now item = t := sortKey_of_parse hp
          have hk2 : sortKey parse now y = ty := sortKey_of_parse hty
          have hle1 : itemLe parse now item y = true :=
            List.rel_of_pairwise_cons hpair hyrest
          have hle2 : sortKey parse now item ≤ sortKey parse now y := by
            have := hle1
            rw [itemLe, decide_eq_true_eq] at this
            exact this
          have hne : sortKey parse now item ≠ sortKey parse now y := by
            intro hEq
            obtain ⟨s1, hs1, _, hps1⟩ := parse_time_some hp
            obtain ⟨s2, hs2, _, hps2⟩ := parse_time_some hty
            have hteq : ty = t := by omega
            have : s2 = s1 := hinj s2 s1 t (hteq ▸ hps2) hps1
            exact hynotseen (by
              rw [seenKey_of_dateTime hs2, this, ← seenKey_of_dateTime hs1]
              exact List.mem_cons_self _ _)
          omega

/-- The fine block is strictly increasing in sort key when every timestamped
fine entry parses to a distinct instant. -/
theorem fineBlock_pairwise_lt {parse : String → Option Int} (now : Int)
    {data1h : List HourlyItem}
    (hfine : ∀ x ∈ data1h.filter hasDateTime, (_parse_time parse x.dateTime).isSome = true)
    (hdist : (data1h.filter hasDateTime).Pairwise
      (fun a b => _parse_time parse a.dateTime ≠ _parse_time parse b.dateTime)) :
    (fineBlock parse now data1h).Pairwise
      (fun a b => sortKey parse now a < sortKey parse now b) := by
  have hperm := sortStable_perm (itemLe parse now) (data1h.filter hasDateTime)
  have hsorted := pairwise_sortStable (itemLe_total parse now) (itemLe_trans parse now)
    (data1h.filter hasDateTime)
  have hsym : Symmetric (fun a b : HourlyItem =>
      _parse_time parse a.dateTime ≠ _parse_time parse b.dateTime) :=
    fun a b h => Ne.symm h
  have hne : (sortStable (itemLe parse now) (data1h.filter hasDateTime)).Pairwise
      (fun a b => _parse_time parse a.dateTime ≠ _parse_time parse b.dateTime) :=
    (List.Perm.pairwise_iff (fun h => hsym h) hperm).mpr hdist
  have hcomb := List.Pairwise.and hsorted hne
  rw [fineBlock]
  refine hcomb.imp_of_mem ?_
  intro a b ha hb hab
  have hpa : (_parse_time parse a.dateTime).isSome = true :=
    hfine a (mem_sortStable.mp ha)
  have hpb : (_parse_time parse b.dateTime).isSome = true :=
    hfine b (mem_sortStable.mp hb)
  obtain ⟨ta, hta⟩ := Option.isSome_iff_exists.mp hpa
  obtain ⟨tb, htb⟩ := Option.isSome_iff_exists.mp hpb
  have hka : sortKey parse now a = ta := sortKey_of_parse hta
  have hkb : sortKey parse now b = tb := sortKey_of_parse htb
  have hle : sortKey parse now a ≤ sortKey parse now b := by
    have := hab.1
    rw [itemLe, decide_eq_true_eq] at this
    exact this
  have : ta ≠ tb := by
    intro hEq
    exact hab.2 (by rw [hta, htb, hEq])
  omega

/-- Membership in the fine block is membership among the timestamped fine
entries. -/
theorem mem_fineBlock {parse : String → Option Int} {now : Int}
    {data1h : List HourlyItem} {x : HourlyItem} :
    x ∈ fineBlock parse now data1h ↔ x ∈ data1h.filter hasDateTime := by
  rw [fineBlock]
  exact mem_sortStable

/-- The fine block is sorted by `itemLe`. -/
theorem fineBlock_pairwise_le (parse : String → Option Int) (now : Int)
    (data1h : List HourlyItem) :
    (fineBlock parse now data1h).Pairwise (fun a b => itemLe parse now a b = true) := by
  rw [fineBlock]
  exact pairwise_sortStable (itemLe_total parse now) (itemLe_trans parse now) _

/-- `parseABC` is injective on the strings it accepts. -/
theorem parseABC_injective : ParseInjective parseABC := by
  intro s1 s2 t h1 h2
  simp only [parseABC] at h1 h2
  split_ifs at h1 h2 <;> simp_all <;> omega

end Kmw

namespace Kmw

/-- C1: the trend fetch parses and returns the body for every status in
[200,299], and for every other status — 304 included — raises `UpdateFailed`
carrying the status code and URL.  (Amended: the source checks only
`HTTP_OK <= status <= HTTP_OK_MAX`; `HTTP_NOT_MODIFIED` is declared but never
consulted, so 304 is fatal like any other non-2xx status.) -/
theorem trend_fetch_status_policy {α : Type} (session : HttpRequest → HttpResponse α)
    (lat lon apiKey : String) :
    (200 ≤ (session (mkRequest (trendUrl lat lon) apiKey)).status →
      (session (mkRequest (trendUrl lat lon) apiKey)).status ≤ 299 →
      (async_fetch_3day_forecast session lat lon apiKey).1 =
        .ok (session (mkRequest (trendUrl lat lon) apiKey)).body) ∧
    ((session (mkRequest (trendUrl lat lon) apiKey)).status < 200 ∨
        299 < (session (mkRequest (trendUrl lat lon) apiKey)).status →
      (async_fetch_3day_forecast session lat lon apiKey).1 =
        .error (.unexpectedStatus (session (mkRequest (trendUrl lat lon) apiKey)).status
          (trendUrl lat lon))) := by
  constructor
  · intro h1 h2
    simp [async_fetch_3day_forecast, HTTP_OK, HTTP_OK_MAX, h1, h2]
  · intro h
    have : ¬ (HTTP_OK ≤ (session (mkRequest (trendUrl lat lon) apiKey)).status ∧
        (session (mkRequest (trendUrl lat lon) apiKey)).status ≤ HTTP_OK_MAX) := by
      simp only [HTTP_OK, HTTP_OK_MAX]
      omega
    simp [async_fetch_3day_forecast, this]

/-- C1 witness: a concrete 500 response on the trend endpoint is fatal, with
the status and URL carried in the error. -/
theorem trend_fetch_status_policy_witness :
    ((500 : Nat) < 200 ∨ 299 < 500) ∧
    (async_fetch_3day_forecast (fun _ => HttpResponse.mk 500 (0 : Nat)) "52.5" "13.4" "k").1 =
      .error (.unexpectedStatus 500 (trendUrl "52.5" "13.4")) :=
  ⟨Or.inr (by decide),
    (trend_fetch_status_policy (fun _ => HttpResponse.mk 500 (0 : Nat)) "52.5" "13.4" "k").2
      (Or.inr (by decide))⟩

/-- C1 counterexample: a 304 response on the trend endpoint IS fatal in the
source — `async_fetch_3day_forecast` raises `UpdateFailed` for 304, refuting
"a 304 status on the trend endpoint is not fatal". -/
theorem trend_fetch_304_is_fatal :
    (async_fetch_3day_forecast (fun _ => HttpResponse.mk 304 (0 : Nat)) "52.5" "13.4" "k").1 =
      .error (.unexpectedStatus 304 (trendUrl "52.5" "13.4")) := by
  simp [async_fetch_3day_forecast, HTTP_OK, HTTP_OK_MAX]

/-- C2: a non-success status on the hourly endpoint degrades to `None`
without raising, and the cycle still succeeds: with forecast enabled, trend
status in [200,299] and hourly status outside it, `_async_update_data`
returns `.ok` with `forecast` populated by the trend body, `forecast_hourly`
absent, and `current` whatever the current fetch degraded to — `UpdateFailed`
is not raised. -/
theorem degraded_hourly_does_not_fail_cycle {α : Type}
    (session : HttpRequest → HttpResponse α) (cfg : CoordinatorConfig)
    (henabled : cfg.forecastEnabled = true)
    (htrend : 200 ≤ (session (mkRequest (trendUrl cfg.latitude cfg.longitude) cfg.apiKey)).status ∧
      (session (mkRequest (trendUrl cfg.latitude cfg.longitude) cfg.apiKey)).status ≤ 299)
    (hhourly : (session (mkRequest (hourlyUrl cfg.latitude cfg.longitude) cfg.apiKey)).status < 200 ∨
      299 < (session (mkRequest (hourlyUrl cfg.latitude cfg.longitude) cfg.apiKey)).status) :
    (async_fetch_hourly_forecast session cfg.latitude cfg.longitude cfg.apiKey).1 = none ∧
    (_async_update_data session cfg).1 =
      .ok [("forecast", some (session (mkRequest (trendUrl cfg.latitude cfg.longitude) cfg.apiKey)).body),
        ("forecast_hourly", none),
        ("current", (async_fetch_current_weather session cfg.latitude cfg.longitude cfg.apiKey).1)] := by
  have hh : (async_fetch_hourly_forecast session cfg.latitude cfg.longitude cfg.apiKey).1 = none := by
    have : ¬ (HTTP_OK ≤ (session (mkRequest (hourlyUrl cfg.latitude cfg.longitude) cfg.apiKey)).status ∧
        (session (mkRequest (hourlyUrl cfg.latitude cfg.longitude) cfg.apiKey)).status ≤ HTTP_OK_MAX) := by
      simp only [HTTP_OK, HTTP_OK_MAX]
      omega
    simp [async_fetch_hourly_forecast, this]
  refine ⟨hh, ?_⟩
  have ht : async_fetch_3day_forecast session cfg.latitude cfg.longitude cfg.apiKey =
      (.ok (session (mkRequest (trendUrl cfg.latitude cfg.longitude) cfg.apiKey)).body,
        [mkRequest (trendUrl cfg.latitude cfg.longitude) cfg.apiKey]) := by
    simp [async_fetch_3day_forecast, HTTP_OK, HTTP_OK_MAX, htrend.1, htrend.2]
  simp [_async_update_data, henabled, ht, hh]

/-- C2 witness: concrete cycle with trend 200 and hourly 503 — snapshot has
the daily forecast populated and the hourly field absent, and no failure is
raised. -/
theorem degraded_hourly_does_not_fail_cycle_witness :
    ((CoordinatorConfig.mk true "k" "52.5" "13.4").forecastEnabled = true ∧
      (200 ≤ 200 ∧ 200 ≤ 299) ∧ ((503 : Nat) < 200 ∨ 299 < 503)) ∧
    ((async_fetch_hourly_forecast
        (fun req => if req.url = hourlyUrl "52.5" "13.4" then HttpResponse.mk 503 (9 : Nat)
          else HttpResponse.mk 200 (9 : Nat)) "52.5" "13.4" "k").1 = none ∧
      (_async_update_data
        (fun req => if req.url = hourlyUrl "52.5" "13.4" then HttpResponse.mk 503 (9 : Nat)
          else HttpResponse.mk 200 (9 : Nat))
        (CoordinatorConfig.mk true "k" "52.5" "13.4")).1 =
        .ok [("forecast", some 9), ("forecast_hourly", none), ("current", some 9)]) := by
  refine ⟨⟨rfl, ⟨by decide, by decide⟩, by decide⟩, ?_⟩
  have h := degraded_hourly_does_not_fail_cycle
    (fun req => if req.url = hourlyUrl "52.5" "13.4" then HttpResponse.mk 503 (9 : Nat)
      else HttpResponse.mk 200 (9 : Nat))
    (CoordinatorConfig.mk true "k" "52.5" "13.4") rfl (by constructor <;> decide) (by decide)
  exact ⟨h.1, by rw [h.2]; rfl⟩

/-- C8 amended: every snapshot a successful cycle publishes is keyed by
exactly the three keys `"forecast"`, `"forecast_hourly"`, `"current"` in that
order; the `"forecast_hourly_3h"` key read by the presentation layer is never
present, so that read always yields `None`. -/
theorem snapshot_has_exactly_three_keys {α : Type}
    (session : HttpRequest → HttpResponse α) (cfg : CoordinatorConfig) (snap : Snapshot α)
    (h : (_async_update_data session cfg).1 = .ok snap) :
    snap.map Prod.fst = ["forecast", "forecast_hourly", "current"] ∧
    dictGet snap "forecast_hourly_3h" = none := by
  by_cases he : cfg.forecastEnabled
  · rw [_async_update_data, if_pos he] at h
    rcases hf : async_fetch_3day_forecast session cfg.latitude cfg.longitude cfg.apiKey with ⟨r, reqs⟩
    cases r with
    | error e => rw [hf] at h; exact absurd h (by simp)
    | ok fd =>
      rw [hf] at h
      simp only at h
      injection h with h
      subst h
      exact ⟨rfl, rfl⟩
  · rw [_async_update_data, if_neg he] at h
    injection h with h
    subst h
    exact ⟨rfl, rfl⟩

/-- C8 witness: a concrete successful cycle publishes exactly the three keys
and no `"forecast_hourly_3h"`. -/
theorem snapshot_has_exactly_three_keys_witness :
    (_async_update_data (fun _ => HttpResponse.mk 200 (1 : Nat))
        (CoordinatorConfig.mk true "k" "52.5" "13.4")).1 =
      .ok [("forecast", some 1), ("forecast_hourly", some 1), ("current", some 1)] ∧
    ([(("forecast" : String), some (1 : Nat)), ("forecast_hourly", some 1),
        ("current", some 1)].map Prod.fst = ["forecast", "forecast_hourly", "current"] ∧
      dictGet [(("forecast" : String), some (1 : Nat)), ("forecast_hourly", some 1),
        ("current", some 1)] "forecast_hourly_3h" = none) :=
  ⟨by rfl,
    snapshot_has_exactly_three_keys (fun _ => HttpResponse.mk 200 (1 : Nat))
      (CoordinatorConfig.mk true "k" "52.5" "13.4") _ (by rfl)⟩

/-- C8 counterexample: a concrete successful cycle publishes a snapshot whose
key list is `["forecast", "forecast_hourly", "current"]` — the claimed fourth
key `"forecast_hourly_3h"` is not among the snapshot's keys, refuting "keyed
by exactly the four keys". -/
theorem snapshot_lacks_forecast_hourly_3h_key :
    (_async_update_data (fun _ => HttpResponse.mk 200 (2 : Nat))
        (CoordinatorConfig.mk true "k" "52.5" "13.4")).1 =
      .ok [("forecast", some 2), ("forecast_hourly", some 2), ("current", some 2)] ∧
    "forecast_hourly_3h" ∉
      ([(("forecast" : String), some (2 : Nat)), ("forecast_hourly", some 2),
        ("current", some 2)].map Prod.fst) := by
  exact ⟨by rfl, by decide⟩

/-- C9 amended: on a cycle that succeeds with the current-conditions endpoint
degraded (non-2xx status), the published snapshot has `current` absent and
the weather entity's `available` predicate is FALSE even though
`last_update_success` is true — the entity becomes unavailable, it does not
remain available. -/
theorem degraded_current_makes_entity_unavailable {α : Type}
    (session : HttpRequest → HttpResponse α) (cfg : CoordinatorConfig)
    (henabled : cfg.forecastEnabled = true)
    (htrend : 200 ≤ (session (mkRequest (trendUrl cfg.latitude cfg.longitude) cfg.apiKey)).status ∧
      (session (mkRequest (trendUrl cfg.latitude cfg.longitude) cfg.apiKey)).status ≤ 299)
    (hcurrent : (session (mkRequest (currentUrl cfg.latitude cfg.longitude) cfg.apiKey)).status < 200 ∨
      299 < (session (mkRequest (currentUrl cfg.latitude cfg.longitude) cfg.apiKey)).status) :
    (_async_update_data session cfg).1 =
      .ok [("forecast", some (session (mkRequest (trendUrl cfg.latitude cfg.longitude) cfg.apiKey)).body),
        ("forecast_hourly", (async_fetch_hourly_forecast session cfg.latitude cfg.longitude cfg.apiKey).1),
        ("current", none)] ∧
    available true
      [("forecast", some (session (mkRequest (trendUrl cfg.latitude cfg.longitude) cfg.apiKey)).body),
        ("forecast_hourly", (async_fetch_hourly_forecast session cfg.latitude cfg.longitude cfg.apiKey).1),
        ("current", none)] = false := by
  have hc : (async_fetch_current_weather session cfg.latitude cfg.longitude cfg.apiKey).1 = none := by
    have : ¬ (HTTP_OK ≤ (session (mkRequest (currentUrl cfg.latitude cfg.longitude) cfg.apiKey)).status ∧
        (session (mkRequest (currentUrl cfg.latitude cfg.longitude) cfg.apiKey)).status ≤ HTTP_OK_MAX) := by
      simp only [HTTP_OK, HTTP_OK_MAX]
      omega
    simp [async_fetch_current_weather, this]
  have ht : async_fetch_3day_forecast session cfg.latitude cfg.longitude cfg.apiKey =
      (.ok (session (mkRequest (trendUrl cfg.latitude cfg.longitude) cfg.apiKey)).body,
        [mkRequest (trendUrl cfg.latitude cfg.longitude) cfg.apiKey]) := by
    simp [async_fetch_3day_forecast, HTTP_OK, HTTP_OK_MAX, htrend.1, htrend.2]
  constructor
  · simp [_async_update_data, henabled, ht, hc]
  · rfl

/-- C9 witness: concrete cycle, trend 200 and current 503 — the snapshot has
`current` absent and `available` is false despite the successful cycle. -/
theorem degraded_current_makes_entity_unavailable_witness :
    ((CoordinatorConfig.mk true "k" "52.5" "13.4").forecastEnabled = true ∧
      (200 ≤ 200 ∧ 200 ≤ 299) ∧ ((503 : Nat) < 200 ∨ 299 < 503)) ∧
    ((_async_update_data
        (fun req => if req.url = currentUrl "52.5" "13.4" then HttpResponse.mk 503 (3 : Nat)
          else HttpResponse.mk 200 (3 : Nat))
        (CoordinatorConfig.mk true "k" "52.5" "13.4")).1 =
      .ok [("forecast", some 3), ("forecast_hourly",
        (async_fetch_hourly_forecast
          (fun req => if req.url = currentUrl "52.5" "13.4" then HttpResponse.mk 503 (3 : Nat)
            else HttpResponse.mk 200 (3 : Nat)) "52.5" "13.4" "k").1),
        ("current", none)] ∧
      available true [(("forecast" : String), some (3 : Nat)), ("forecast_hourly",
        (async_fetch_hourly_forecast
          (fun req => if req.url = currentUrl "52.5" "13.4" then HttpResponse.mk 503 (3 : Nat)
            else HttpResponse.mk 200 (3 : Nat)) "52.5" "13.4" "k").1),
        ("current", none)] = false) := by
  refine ⟨⟨rfl, ⟨by decide, by decide⟩, by decide⟩, ?_⟩
  exact degraded_current_makes_entity_unavailable
    (fun req => if req.url = currentUrl "52.5" "13.4" then HttpResponse.mk 503 (3 : Nat)
      else HttpResponse.mk 200 (3 : Nat))
    (CoordinatorConfig.mk true "k" "52.5" "13.4") rfl (by constructor <;> decide) (by decide)

/-- C9 counterexample: a concrete successful cycle with the current endpoint
degraded to absent data leaves `available` FALSE, refuting "the entity's
available predicate is still true". -/
theorem entity_not_available_on_degraded_current :
    (_async_update_data
        (fun req => if req.url = currentUrl "52.5" "13.4" then HttpResponse.mk 503 (4 : Nat)
          else HttpResponse.mk 200 (4 : Nat))
        (CoordinatorConfig.mk true "k" "52.5" "13.4")).1 =
      .ok [("forecast", some 4), ("forecast_hourly", some 4), ("current", none)] ∧
    available true [(("forecast" : String), some (4 : Nat)), ("forecast_hourly", some 4),
      ("current", none)] = false := by
  exact ⟨by rfl, by rfl⟩

/-- C3: when the `forecast` configuration switch is off, the cycle publishes
the snapshot with all three values `None` and issues no HTTP request at
all. -/
theorem update_data_forecast_disabled {α : Type} (session : HttpRequest → HttpResponse α)
    (cfg : CoordinatorConfig) (h : cfg.forecastEnabled = false) :
    _async_update_data session cfg =
      (.ok [("forecast", none), ("forecast_hourly", none), ("current", none)], []) := by
  simp [_async_update_data, h]

/-- C3 witness: concrete disabled configuration — all fields absent, empty
request trace. -/
theorem update_data_forecast_disabled_witness :
    (CoordinatorConfig.mk false "k" "52.5" "13.4").forecastEnabled = false ∧
    _async_update_data (fun _ => HttpResponse.mk 200 (7 : Nat))
        (CoordinatorConfig.mk false "k" "52.5" "13.4") =
      (.ok [("forecast", none), ("forecast_hourly", none), ("current", none)], []) :=
  ⟨rfl, update_data_forecast_disabled (fun _ => HttpResponse.mk 200 (7 : Nat)) _ rfl⟩

/-- C7: `"sunshine"` at night maps to `"clear-night"` while `"sunshine"` by
day maps to `"sunny"` (two distinct outputs for the same symbol), an absent
or empty symbol maps to `None`, and any symbol not in the fixed table maps to
`None` without raising. -/
theorem condition_mapping_sunshine_day_night :
    _get_condition_from_weather_symbol (some "sunshine") DayNight.NIGHT = some "clear-night" ∧
    _get_condition_from_weather_symbol (some "sunshine") DayNight.DAY = some "sunny" ∧
    ("clear-night" : String) ≠ "sunny" ∧
    (∀ dn, _get_condition_from_weather_symbol none dn = none) ∧
    (∀ dn, _get_condition_from_weather_symbol (some "") dn = none) ∧
    (∀ s dn, conditionsMapGet s = none →
      _get_condition_from_weather_symbol (some s) dn = none) := by
  refine ⟨by rfl, by rfl, by decide, fun dn => rfl, fun dn => by cases dn <;> rfl, ?_⟩
  intro s dn hs
  have hsun : s ≠ "sunshine" := by
    intro h
    rw [h] at hs
    exact absurd hs (by decide)
  by_cases hempty : s = ""
  · subst hempty
    cases dn <;> rfl
  · rw [_get_condition_from_weather_symbol, if_neg hempty]
    rw [if_neg (by
      intro hc
      exact hsun hc.2)]
    exact hs

/-- C7 witness: the unknown-symbol clause applied at the concrete symbol
`"unknown_code_xyz"`, which is not in the table. -/
theorem condition_mapping_sunshine_day_night_witness :
    conditionsMapGet "unknown_code_xyz" = none ∧
    _get_condition_from_weather_symbol (some "unknown_code_xyz") DayNight.DAY = none :=
  ⟨by rfl,
    condition_mapping_sunshine_day_night.2.2.2.2.2 "unknown_code_xyz" DayNight.DAY (by rfl)⟩

/-- C10: whenever the current payload reports a precipitation value of
exactly `0.0` (from `precCurrent` or the `prec1h` fallback),
`native_precipitation_rate` returns `None`; and it returns a numeric value
only when a precipitation measurement is present with a non-zero value. -/
theorem precipitation_rate_zero_is_absent (current : Option CurrentPayload) :
    (∀ d m, _get_current_data current = some d → effectivePrec d = some m →
      m.value = 0 → native_precipitation_rate current = none) ∧
    (∀ v, native_precipitation_rate current = some v →
      v ≠ 0 ∧ ∃ d m, _get_current_data current = some d ∧ effectivePrec d = some m ∧
        m.value = v) := by
  constructor
  · intro d m hd hm hz
    rw [native_precipitation_rate, hd]
    simp only [hm]
    rw [if_pos hz]
  · intro v hv
    rw [native_precipitation_rate] at hv
    rcases hd : _get_current_data current with _ | d
    · rw [hd] at hv
      exact absurd hv (by simp)
    · rw [hd] at hv
      rcases hm : effectivePrec d with _ | m
      · simp only [hm] at hv
        exact absurd hv (by simp)
      · simp only [hm] at hv
        by_cases hz : m.value = 0
        · rw [if_pos hz] at hv
          exact absurd hv (by simp)
        · rw [if_neg hz] at hv
          injection hv with hv
          subst hv
          exact ⟨hz, d, m, rfl, hm, rfl⟩

/-- C4 amended: when the external parser is injective, every timestamped
entry of both series parses, and the timestamped fine entries have pairwise
distinct instants, the merged output is strictly ascending in timestamp
(hence sorted with no duplicate timestamps); moreover whenever the fine
series has a timestamped entry, `last_1h_time` is set, and — with no
hypotheses needed — every retained coarse entry is strictly later than
`last_1h_time` whenever that is set, so the fine block entirely precedes the
retained coarse entries. -/
theorem merge_sorted_and_fine_precedes (parse : String → Option Int) (now : Int)
    (data1h data3h : List HourlyItem)
    (hinj : ParseInjective parse)
    (hfine : ∀ x ∈ data1h.filter hasDateTime, (_parse_time parse x.dateTime).isSome = true)
    (hcoarse : ∀ x ∈ data3h.filter hasDateTime, (_parse_time parse x.dateTime).isSome = true)
    (hdist : (data1h.filter hasDateTime).Pairwise
      (fun a b => _parse_time parse a.dateTime ≠ _parse_time parse b.dateTime)) :
    (mergeHourly parse now data1h data3h).Pairwise
      (fun a b => sortKey parse now a < sortKey parse now b) ∧
    (data1h.filter hasDateTime ≠ [] → (lastFineTime parse now data1h).isSome = true) ∧
    (∀ T, lastFineTime parse now data1h = some T →
      ∀ x ∈ coarseBlock parse now data1h data3h, T < sortKey parse now x) := by
  have part3 : ∀ T, lastFineTime parse now data1h = some T →
      ∀ x ∈ coarseBlock parse now data1h data3h, T < sortKey parse now x := by
    intro T hT x hx
    rw [coarseBlock] at hx
    obtain ⟨_, t, ht, hle, _⟩ := coarseStep_mem hx
    rw [sortKey_of_parse ht]
    rw [hT] at hle
    simp only [leLast, decide_eq_false_iff_not] at hle
    omega
  have part2 : data1h.filter hasDateTime ≠ [] →
      (lastFineTime parse now data1h).isSome = true := by
    intro hne
    have hfb : fineBlock parse now data1h ≠ [] := by
      intro h0
      apply hne
      have hperm := sortStable_perm (itemLe parse now) (data1h.filter hasDateTime)
      rw [fineBlock] at h0
      rw [h0] at hperm
      exact (List.Perm.symm hperm).eq_nil
    rcases hlast : (fineBlock parse now data1h).getLast? with _ | lastIt
    · exact absurd (List.getLast?_eq_none_iff.mp hlast) hfb
    · have hmem := getLast?_mem_list hlast
      have hps := hfine lastIt (mem_fineBlock.mp hmem)
      rw [lastFineTime, hlast]
      exact hps
  refine ⟨?_, part2, part3⟩
  have hfinelt := fineBlock_pairwise_lt now hfine hdist
  have hcoarselt : (coarseBlock parse now data1h data3h).Pairwise
      (fun a b => sortKey parse now a < sortKey parse now b) := by
    rw [coarseBlock]
    exact coarseStep_pairwise_lt hinj
      (pairwise_sortStable (itemLe_total parse now) (itemLe_trans parse now) _)
      (fun x hx => hcoarse x (mem_sortStable.mp hx))
  have hcross : ∀ a ∈ fineBlock parse now data1h,
      ∀ b ∈ coarseBlock parse now data1h data3h,
        sortKey parse now a < sortKey parse now b := by
    intro a ha b hb
    have hne : fineBlock parse now data1h ≠ [] := List.ne_nil_of_mem ha
    rcases hlast : (fineBlock parse now data1h).getLast? with _ | lastIt
    · exact absurd (List.getLast?_eq_none_iff.mp hlast) hne
    have hlmem := getLast?_mem_list hlast
    obtain ⟨T, hT⟩ := Option.isSome_iff_exists.mp (hfine lastIt (mem_fineBlock.mp hlmem))
    have hlft : lastFineTime parse now data1h = some T := by
      rw [lastFineTime, hlast]
      exact hT
    have hub := pairwise_getLast_ub (fineBlock_pairwise_le parse now data1h) hlast a ha
    have hka : sortKey parse now a ≤ T := by
      rcases hub with rfl | hrel
      · rw [sortKey_of_parse hT]
      · rw [itemLe, decide_eq_true_eq] at hrel
        rw [sortKey_of_parse hT] at hrel
        exact hrel
    have hb' := part3 T hlft b hb
    omega
  rw [mergeHourly]
  exact List.pairwise_append.mpr ⟨hfinelt, hcoarselt, hcross⟩

/-- C4 witness: concrete parser `"a" ↦ 1, "b" ↦ 2, "c" ↦ 3`, fine series
`[b, a]`, coarse series `[c, a]` — all hypotheses hold and the merged output
is strictly ascending with the fine block preceding the retained coarse
entries. -/
theorem merge_sorted_and_fine_precedes_witness :
    (ParseInjective parseABC ∧
      (∀ x ∈ ([HourlyItem.mk (some "b"), HourlyItem.mk (some "a")]).filter hasDateTime,
        (_parse_time parseABC x.dateTime).isSome = true) ∧
      (∀ x ∈ ([HourlyItem.mk (some "c"), HourlyItem.mk (some "a")]).filter hasDateTime,
        (_parse_time parseABC x.dateTime).isSome = true) ∧
      (([HourlyItem.mk (some "b"), HourlyItem.mk (some "a")]).filter hasDateTime).Pairwise
        (fun a b => _parse_time parseABC a.dateTime ≠ _parse_time parseABC b.dateTime)) ∧
    ((mergeHourly parseABC 0 [HourlyItem.mk (some "b"), HourlyItem.mk (some "a")]
        [HourlyItem.mk (some "c"), HourlyItem.mk (some "a")]).Pairwise
      (fun a b => sortKey parseABC 0 a < sortKey parseABC 0 b) ∧
      (([HourlyItem.mk (some "b"), HourlyItem.mk (some "a")]).filter hasDateTime ≠ [] →
        (lastFineTime parseABC 0 [HourlyItem.mk (some "b"), HourlyItem.mk (some "a")]).isSome
          = true) ∧
      (∀ T, lastFineTime parseABC 0 [HourlyItem.mk (some "b"), HourlyItem.mk (some "a")]
          = some T →
        ∀ x ∈ coarseBlock parseABC 0 [HourlyItem.mk (some "b"), HourlyItem.mk (some "a")]
          [HourlyItem.mk (some "c"), HourlyItem.mk (some "a")], T < sortKey parseABC 0 x)) :=
  ⟨⟨parseABC_injective, by decide, by decide, by decide⟩,
    merge_sorted_and_fine_precedes parseABC 0
      [HourlyItem.mk (some "b"), HourlyItem.mk (some "a")]
      [HourlyItem.mk (some "c"), HourlyItem.mk (some "a")]
      parseABC_injective (by decide) (by decide) (by decide)⟩

/-- C4 counterexample: two fine entries sharing the timestamp string `"a"`
are BOTH kept (the fine loop never consults `seen_times`), so the merged
output contains a duplicate timestamp, refuting "contains no duplicate
timestamps" for arbitrary input series. -/
theorem merge_duplicate_timestamps_possible :
    mergeHourly parseOnlyA 0 [HourlyItem.mk (some "a"), HourlyItem.mk (some "a")] [] =
      [HourlyItem.mk (some "a"), HourlyItem.mk (some "a")] ∧
    ¬ (mergeHourly parseOnlyA 0
        [HourlyItem.mk (some "a"), HourlyItem.mk (some "a")] []).Pairwise
      (fun a b => sortKey parseOnlyA 0 a ≠ sortKey parseOnlyA 0 b) := by
  constructor
  · rfl
  · intro h
    rw [show mergeHourly parseOnlyA 0
        [HourlyItem.mk (some "a"), HourlyItem.mk (some "a")] [] =
      [HourlyItem.mk (some "a"), HourlyItem.mk (some "a")] from rfl] at h
    exact List.rel_of_pairwise_cons h (List.mem_singleton_self _) rfl

/-- C5 amended: every entry of the merged output has a present, non-empty
`dateTime`; every RETAINED COARSE entry additionally has a parseable
timestamp; but the fine block keeps every timestamped fine entry — including
those whose `dateTime` does not parse (their sort key falls back to the
current instant). -/
theorem merge_discard_policy (parse : String → Option Int) (now : Int)
    (data1h data3h : List HourlyItem) :
    (∀ x ∈ mergeHourly parse now data1h data3h, hasDateTime x = true) ∧
    (∀ x ∈ coarseBlock parse now data1h data3h,
      (_parse_time parse x.dateTime).isSome = true) ∧
    List.Perm (fineBlock parse now data1h) (data1h.filter hasDateTime) := by
  refine ⟨?_, ?_, ?_⟩
  · intro x hx
    rw [mergeHourly] at hx
    rcases List.mem_append.mp hx with hx | hx
    · exact List.of_mem_filter (mem_fineBlock.mp hx)
    · rw [coarseBlock] at hx
      obtain ⟨hmem, _⟩ := coarseStep_mem hx
      exact List.of_mem_filter (mem_sortStable.mp hmem)
  · intro x hx
    rw [coarseBlock] at hx
    obtain ⟨_, t, ht, _⟩ := coarseStep_mem hx
    rw [ht]
    rfl
  · rw [fineBlock]
    exact sortStable_perm _ _

/-- C5 witness: the discard policy applied to a concrete merged entry — it
has a present, non-empty `dateTime`. -/
theorem merge_discard_policy_witness :
    (HourlyItem.mk (some "a") ∈ mergeHourly parseOnlyA 0 [HourlyItem.mk (some "a")] []) ∧
    hasDateTime (HourlyItem.mk (some "a")) = true :=
  ⟨by decide,
    (merge_discard_policy parseOnlyA 0 [HourlyItem.mk (some "a")] []).1
      (HourlyItem.mk (some "a")) (by decide)⟩

/-- C5 counterexample: a fine entry whose `dateTime` is present but does not
parse as a datetime IS retained in the merged output (the generator filter
only tests presence, and the fine loop appends unconditionally), refuting
"no entry whose dateTime cannot be parsed appears in the merged output". -/
theorem unparseable_fine_entry_retained :
    mergeHourly parseNothing 0 [HourlyItem.mk (some "not-a-time")] [] =
      [HourlyItem.mk (some "not-a-time")] ∧
    _parse_time parseNothing (HourlyItem.mk (some "not-a-time")).dateTime = none :=
  ⟨rfl, rfl⟩

/-- C6: when both extracted hourly lists are empty — in particular when both
snapshot hourly fields are absent — the merge returns `None`, not an empty
sequence. -/
theorem merge_both_empty_absent (parse : String → Option Int) (now : Int)
    (fh fh3 : Option HourlyPayload)
    (h1 : payloadData fh = []) (h3 : payloadData fh3 = []) :
    _async_forecast_hourly parse now fh fh3 = none := by
  rw [_async_forecast_hourly]
  simp [h1, h3]

/-- C6 witness: both snapshot hourly fields absent yields `None`. -/
theorem merge_both_empty_absent_witness :
    (payloadData none = [] ∧ payloadData none = []) ∧
    _async_forecast_hourly parseNothing 0 none none = none :=
  ⟨⟨rfl, rfl⟩, merge_both_empty_absent parseNothing 0 none none rfl rfl⟩

/-- C10 witness: a concrete payload reporting `precCurrent = 0.0` yields an
absent precipitation rate. -/
theorem precipitation_rate_zero_is_absent_witness :
    (_get_current_data (some (CurrentPayload.mk (some (CurrentDayData.mk
        (some (Measurement.mk 0)) none)))) =
      some (CurrentDayData.mk (some (Measurement.mk 0)) none) ∧
      effectivePrec (CurrentDayData.mk (some (Measurement.mk 0)) none) =
        some (Measurement.mk 0) ∧ (Measurement.mk (0 : ℚ)).value = 0) ∧
    native_precipitation_rate (some (CurrentPayload.mk (some (CurrentDayData.mk
        (some (Measurement.mk 0)) none)))) = none :=
  ⟨⟨rfl, rfl, rfl⟩,
    (precipitation_rate_zero_is_absent _).1 _ _ rfl rfl rfl⟩

end Kmw
